import Mathlib

/-!
Verification of the C++ frontend of fuzz-introspector
(`src/fuzz_introspector/frontends/frontend_cpp.py`).

The development shallowly embeds the tree-sitter-based static analysis:
the syntax-tree node model, function-definition information extraction,
namespace processing, callsite extraction, name resolution (per-unit and
global), cross-unit definition lookup, call-tree rendering and the
recursive function-depth computation.  Python exceptions (attribute
access on `None`) are modelled by `Option`: a `none` result corresponds
to the Python code raising.  Unbounded recursive traversals are given an
explicit fuel argument; all claims are settled either for every fuel or
at a fuel large enough for the concrete input at hand.
-/

set_option maxHeartbeats 1000000

/-! ## String helpers mirroring Python primitives -/

/-- `occursAt s sep i` holds when `sep` occurs in `s` starting at
character position `i` (Python `s[i:].startswith(sep)`). -/
def occursAt (s sep : String) (i : Nat) : Bool :=
  sep.data.isPrefixOf (s.data.drop i)

/-- Position of the last occurrence of `sep` in `s`
(Python `s.rfind(sep)`, `none` for not found). -/
def rfindSub (s sep : String) : Option Nat :=
  ((List.range (s.length + 1)).filter (occursAt s sep)).getLast?

/-- Position of the first occurrence of `sep` in `s`
(Python `s.find(sep)`, `none` for not found). -/
def lfindSub (s sep : String) : Option Nat :=
  ((List.range (s.length + 1)).filter (occursAt s sep)).head?

/-- Python `sep in s` (substring containment). -/
def containsSub (s sep : String) : Bool :=
  (rfindSub s sep).isSome

/-- Python `s.rsplit(sep, 1)`: split at the last occurrence of `sep`;
`none` when `sep` does not occur. -/
def rsplit1 (s sep : String) : Option (String × String) :=
  match rfindSub s sep with
  | none => none
  | some i => some (⟨s.data.take i⟩, ⟨s.data.drop (i + sep.length)⟩)

/-- Python `s.split(sep, 1)` (at most one split, at the first occurrence). -/
def lsplit1List (s sep : String) : List String :=
  match lfindSub s sep with
  | none => [s]
  | some i => [⟨s.data.take i⟩, ⟨s.data.drop (i + sep.length)⟩]

/-- Scanner for `pySplit` (non-overlapping, left to right); the fuel
is at least the string length so it never runs out. -/
def pySplitAux (sep : List Char) : Nat → List Char → List Char → List (List Char)
  | 0, s, acc => [acc.reverse ++ s]
  | fuel + 1, s, acc =>
    match s with
    | [] => [acc.reverse]
    | c :: cs =>
      if sep ≠ [] && sep.isPrefixOf (c :: cs) then
        acc.reverse :: pySplitAux sep fuel ((c :: cs).drop sep.length) []
      else pySplitAux sep fuel cs (c :: acc)

/-- Python `s.split(sep)` for a non-empty separator. -/
def pySplit (s sep : String) : List String :=
  (pySplitAux sep.data (s.data.length + 1) s.data []).map (fun l => ⟨l⟩)

/-- Python `sep.join(parts)`. -/
def pyJoin (sep : String) : List String → String
  | [] => ""
  | [x] => x
  | x :: rest => x ++ sep ++ pyJoin sep rest

/-- Python `s.endswith(suffix)`. -/
def pyEndsWith (s suffix : String) : Bool :=
  suffix.data.isSuffixOf s.data

/-- Python `s.startswith(p)`. -/
def pyStartsWith (s p : String) : Bool :=
  p.data.isPrefixOf s.data

/-- Python `s * n` for strings (`"  " * depth`, `"*" * count`). -/
def repeatStr (s : String) : Nat → String
  | 0 => ""
  | n + 1 => s ++ repeatStr s n

/-- Python `name.split(sep)[-1]`. -/
def lastSegment (s sep : String) : String :=
  (pySplit s sep).getLastD ""

/-! ## The syntax-tree node model

A tree-sitter node exposes a kind (`type`), the source text it spans,
its start row, its end byte offset, whether it is named, and an ordered
list of children, each optionally tagged with a field name
(`child_by_field_name` returns the first child carrying the field). -/

mutual
inductive Node : Type where
  | mk (kind : String) (text : String) (startRow : Nat) (endByte : Nat)
       (isNamed : Bool) (children : Children)

inductive Children : Type where
  | nil : Children
  | cons (fieldTag : Option String) (child : Node) (rest : Children) : Children
end

def Node.kind : Node → String
  | .mk k _ _ _ _ _ => k

def Node.text : Node → String
  | .mk _ t _ _ _ _ => t

def Node.startRow : Node → Nat
  | .mk _ _ r _ _ _ => r

def Node.endByte : Node → Nat
  | .mk _ _ _ e _ _ => e

def Node.isNamed : Node → Bool
  | .mk _ _ _ _ b _ => b

def Node.children : Node → Children
  | .mk _ _ _ _ _ c => c

def Children.byFieldName : Children → String → Option Node
  | .nil, _ => none
  | .cons f c rest, nm => if f == some nm then some c else byFieldName rest nm

/-- Python `node.child_by_field_name(nm)`. -/
def Node.childByFieldName (n : Node) (nm : String) : Option Node :=
  n.children.byFieldName nm

def Children.toList : Children → List Node
  | .nil => []
  | .cons _ c rest => c :: toList rest

/-! ## Function information extraction (`FunctionDefinition._extract_information`) -/

/-- Record of the information `_extract_information` computes for a
function-definition node (excluding the metric counts). -/
structure ExtractedInfo where
  sig : String
  name : String
  namespace_or_class : String
  return_type : String
  arg_names : List String
  arg_types : List String
deriving Repr, DecidableEq

/-- Lines 189-194: when the extracted declarator name contains `::`,
split at the last occurrence; the left part extends (or becomes) the
namespace/class qualifier, the right part is the simple name. -/
def resolveQualified (ns name : String) : String × String :=
  match rsplit1 name "::" with
  | none => (ns, name)
  | some (pfx, nm) =>
    if ns != "" && pfx != "" then (ns ++ "::" ++ pfx, nm) else (pfx, nm)

/-- Lines 173-186: scan the declarator's children, picking up the
function name (any child whose kind contains `identifier`, possibly one
level down inside a `function_declarator`) and the parameter-list node.
Later matches overwrite earlier ones, as in the Python loop. -/
def scanNameNode (children : List Node) : String × Option Node :=
  children.foldl
    (fun (acc : String × Option Node) child =>
      if containsSub child.kind "identifier" then (child.text, acc.2)
      else if child.kind == "function_declarator" then
        child.children.toList.foldl
          (fun (acc2 : String × Option Node) decl =>
            if containsSub decl.kind "identifier" then (decl.text, acc2.2)
            else if decl.kind == "parameter_list" then (acc2.1, some decl)
            else acc2)
          acc
      else if child.kind == "parameter_list" then (acc.1, some child)
      else acc)
    ("", none)

/-- Lines 213-223: strip successive wrappers of kind `kindName`
(pointer or array declarators), counting them.  `none` models the
`AttributeError` raised when a wrapper lacks a `declarator` field. -/
def stripDeclarators (kindName : String) : Nat → Node → Nat → Option (Nat × Node)
  | 0, _, _ => none
  | fuel + 1, n, count =>
    if n.kind == kindName then
      match n.childByFieldName "declarator" with
      | none => none
      | some n2 => stripDeclarators kindName fuel n2 (count + 1)
    else some (count, n)

/-- Lines 204-228: process the parameter list's children, skipping
parameters missing a type or declarator, and decomposing
pointer/array wrappers into `*`/`[]` suffixes of the type string.
Returns `(arg_names, arg_types)`. -/
def processParameters (fuel : Nat) : List Node → Option (List String × List String)
  | [] => some ([], [])
  | p :: rest =>
    if p.kind == "parameter_declaration" then
      match p.childByFieldName "type", p.childByFieldName "declarator" with
      | some pt, some pn =>
        match stripDeclarators "pointer_declarator" fuel pn 0 with
        | none => none
        | some (pc, pn1) =>
          match stripDeclarators "array_declarator" fuel pn1 0 with
          | none => none
          | some (ac, pn2) =>
            match processParameters fuel rest with
            | none => none
            | some (names, types) =>
              some (pn2.text :: names,
                    (pt.text ++ repeatStr "*" pc ++ repeatStr "[]" ac) :: types)
      | _, _ => processParameters fuel rest
    else processParameters fuel rest

/-- `FunctionDefinition._extract_information` (lines 167-228).  `none`
models an uncaught `AttributeError`: a missing `declarator` field
(line 171 `name_node.text`) or a missing parameter list
(line 204 `param_list_node.children`). -/
def extractInformation (fuel : Nat) (root : Node) (ns : String) : Option ExtractedInfo :=
  match root.childByFieldName "declarator" with
  | none => none
  | some name_node =>
    let sig := name_node.text
    let scanned := scanNameNode name_node.children.toList
    let resolved := resolveQualified ns scanned.1
    let rt : String :=
      match root.childByFieldName "type" with
      | some t => t.text
      | none => "void"
    match scanned.2 with
    | none => none
    | some plist =>
      match processParameters fuel plist.children.toList with
      | none => none
      | some (argNames, argTypes) =>
        some { sig := sig, name := resolved.2, namespace_or_class := resolved.1,
               return_type := rt, arg_names := argNames, arg_types := argTypes }

/-! ## Metrics (`_process_complexity`, `_process_icount`) -/

def branchNodes : List String :=
  ["if_statement", "switch_statement", "do_statement",
   "while_statement", "for_statement", "for_range_loop",
   "try_statement", "seh_try_statement", "throw_statement",
   "goto_statement", "co_return_statement", "co_yield_statement",
   "break_statement", "continue_statement", "&&", "||"]

mutual
def nodeComplexity : Node → Nat
  | .mk k _ _ _ _ cs => (if branchNodes.contains k then 1 else 0) + childrenComplexity cs

def childrenComplexity : Children → Nat
  | .nil => 0
  | .cons _ c rest => nodeComplexity c + childrenComplexity rest
end

mutual
def nodeIcount : Node → Nat
  | .mk k _ _ _ _ cs => (if containsSub k "statement" then 1 else 0) + childrenIcount cs

def childrenIcount : Children → Nat
  | .nil => 0
  | .cons _ c rest => nodeIcount c + childrenIcount rest
end

/-! ## Namespace processing (`SourceCodeFile.process_tree`,
`_process_namespace_node`) -/

/-- Lines 75-90: fold the namespace-definition's `name` child into the
running qualifier (handling nested and simple namespace forms), with a
leading `::` stripped after each append. -/
def namespaceUpdate (ns : String) (nameNode : Option Node) : String :=
  match nameNode with
  | none => ns
  | some n =>
    if n.kind == "nested_namespace_specifier" then
      n.children.toList.foldl
        (fun acc c =>
          if !c.isNamed then acc
          else
            let acc2 := acc ++ "::" ++ c.text
            if pyStartsWith acc2 "::" then acc2.drop 2 else acc2)
        ns
    else if n.kind == "namespace_identifier" then
      let ns2 := ns ++ "::" ++ n.text
      if pyStartsWith ns2 "::" then ns2.drop 2 else ns2
    else ns

/-- Lines 63-93: depth-first walk collecting
(enclosing namespace, function-definition node) pairs in textual order.
`process_tree node ns` is `processTreeList fuel node.children ns`. -/
def processTreeList : Nat → Children → String → List (String × Node)
  | 0, _, _ => []
  | _ + 1, .nil, _ => []
  | fuel + 1, .cons _ child rest, ns =>
    (if child.kind == "function_definition" then [(ns, child)]
     else if child.kind == "namespace_definition" then
       processTreeList fuel child.children
         (namespaceUpdate ns (child.childByFieldName "name"))
     else processTreeList fuel child.children ns)
    ++ processTreeList fuel rest ns

/-! ## Core data model -/

/-- `FunctionDefinition`: the fields the analysis reads and writes.
`base_callsites` holds (callee name, line) pairs, `detailed_callsites`
holds (Src location, Dst name) pairs. -/
structure FunctionDefinition where
  name : String
  namespace_or_class : String
  return_type : String
  sig : String
  arg_names : List String := []
  arg_types : List String := []
  complexity : Nat := 0
  icount : Nat := 0
  root : Node
  parent_file : String
  base_callsites : List (String × Nat) := []
  detailed_callsites : List (String × String) := []

/-- `SourceCodeFile`: one source unit with its function definitions in
textual order. -/
structure SourceCodeFile where
  source_file : String
  func_defs : List FunctionDefinition

/-- `Project`: the aggregate.  `all_functions` is `none` until the
aggregation pass `dump_module_logic` has run (modelling the attribute
not existing before that pass). -/
structure Project where
  source_code_files : List SourceCodeFile
  all_functions : Option (List (String × FunctionDefinition)) := none

/-! ## Name resolution -/

/-- `SourceCodeFile.get_function_node` (lines 100-126): exact
qualifier-plus-name match first; with `exact := false`, fall back to a
simple-name match and then to a match on the target's last `::`
segment. -/
def SourceCodeFile.get_function_node (sc : SourceCodeFile)
    (target : String) (exact : Bool) : Option FunctionDefinition :=
  match sc.func_defs.find? (fun f =>
      if f.namespace_or_class != "" then
        (f.namespace_or_class ++ "::" ++ f.name) == target
      else f.name == target) with
  | some f => some f
  | none =>
    if exact then none
    else
      match sc.func_defs.find? (fun f => f.name == target) with
      | some f => some f
      | none => sc.func_defs.find? (fun f => f.name == lastSegment target "::")

/-- Inner suffix loop of the module-level `get_function_node`
(lines 659-662): for each suffix of the split name, from longest to
shortest, return the first map entry whose key ends with that suffix. -/
def suffixSearch (fmap : List (String × FunctionDefinition)) :
    List String → Option FunctionDefinition
  | [] => none
  | parts@(_ :: rest) =>
    match fmap.find? (fun p => pyEndsWith p.1 (pyJoin "::" parts)) with
    | some p => some p.2
    | none => suffixSearch fmap rest

/-- Module-level `get_function_node` (lines 643-664): exact key match in
the global map first, then the suffix search. -/
def getFunctionNodeGlobal (target : String)
    (fmap : List (String × FunctionDefinition)) (oneLayerOnly : Bool) :
    Option FunctionDefinition :=
  match fmap.find? (fun p => p.1 == target) with
  | some p => some p.2
  | none =>
    suffixSearch fmap
      (if oneLayerOnly then lsplit1List target "::" else pySplit target "::")

/-- One pass of `Project.find_source_with_func_def` (exact or fuzzy):
succeeds only when exactly one source unit matches. -/
def findPass (proj : Project) (name : String) (exact : Bool) :
    Option (SourceCodeFile × FunctionDefinition) :=
  match proj.source_code_files.filterMap
      (fun sc => (sc.get_function_node name exact).map (fun f => (sc, f))) with
  | [m] => some m
  | _ => none

/-- `Project.find_source_with_func_def` (lines 514-545): unique exact
match across units, else unique fuzzy match, else no result. -/
def find_source_with_func_def (proj : Project) (name : String) :
    Option (SourceCodeFile × FunctionDefinition) :=
  match findPass proj name true with
  | some m => some m
  | none => findPass proj name false

/-! ## Callsite extraction (`FunctionDefinition.extract_callsites`) -/

/-- The tail of `_process_field_expr_return_type` (lines 322-332): given
the field name and the receiver's object type (`none` when unknown),
produce the (resolved return type, full qualified name) pair.  An empty
object type string is falsy in Python and treated as unknown. -/
def fieldExprFinish (fns : List (String × FunctionDefinition))
    (name : String) (objectType : Option String) : Option String × String :=
  match objectType with
  | some ot =>
    if ot == "" then (none, name)
    else
      let full_name := if ot == "void" then name else ot ++ "::" ++ name
      match getFunctionNodeGlobal full_name fns false with
      | some fd => (some fd.return_type, full_name)
      | none => (none, full_name)
  | none => (none, name)

/-- `_process_field_expr_return_type` (lines 303-332).  The receiver's
"type" propagated from a chained field expression is the inner call's
full name (the Python code binds `_, object_type` to the returned
pair).  `none` models the `AttributeError` raised when the `argument`
or `field` child is missing. -/
def processFieldExprReturnType (fns : List (String × FunctionDefinition))
    (selfNs : String) : Nat → Node → Option (Option String × String)
  | 0, _ => none
  | fuel + 1, fe =>
    match fe.childByFieldName "argument", fe.childByFieldName "field" with
    | some arg, some fieldN =>
      if arg.kind == "field_expression" then
        match processFieldExprReturnType fns selfNs fuel arg with
        | none => none
        | some (_, innerName) => some (fieldExprFinish fns fieldN.text (some innerName))
      else if arg.kind == "this" then
        some (fieldExprFinish fns fieldN.text (some selfNs))
      else some (fieldExprFinish fns fieldN.text none)
    | _, _ => none

/-- `_process_invoke` (lines 272-301): raw (name, end byte, line)
triples recorded for one call expression.  For a `field_expression`
callee both appended triples use the field-expression node's end byte
offset (`func.byte_range[1]` on lines 294 and 298). -/
def processInvoke (fns : List (String × FunctionDefinition))
    (selfNs : String) (fuel : Nat) (expr : Node) :
    Option (List (String × Nat × Nat)) :=
  match expr.childByFieldName "function" with
  | none => some []
  | some func =>
    if func.kind == "identifier" || func.kind == "qualified_identifier"
        || func.kind == "template_function" then
      let tn := func.text
      if tn == "" then some [] else some [(tn, func.endByte, func.startRow + 1)]
    else if func.kind == "field_expression" then
      match processFieldExprReturnType fns selfNs fuel func with
      | none => none
      | some (_, tn) =>
        if tn == "" then some [(tn, func.endByte, func.startRow + 1)]
        else some [(tn, func.endByte, func.startRow + 1),
                   (tn, func.endByte, func.startRow + 1)]
    else some []

/-- `_process_callsites` (lines 334-353) mapped over a child list: each
statement contributes its own call/new-expression triples followed by
those of its subtree, in document order. -/
def processCallsitesChildren (fns : List (String × FunctionDefinition))
    (selfNs : String) : Nat → Children → Option (List (String × Nat × Nat))
  | 0, _ => none
  | _ + 1, .nil => some []
  | fuel + 1, .cons _ stmt rest =>
    let head : Option (List (String × Nat × Nat)) :=
      if stmt.kind == "call_expression" then processInvoke fns selfNs fuel stmt
      else if stmt.kind == "new_expression" then
        match stmt.childByFieldName "type" with
        | some t => some [(t.text, stmt.endByte, stmt.startRow + 1)]
        | none => some []
      else some []
    match head, processCallsitesChildren fns selfNs fuel stmt.children,
          processCallsitesChildren fns selfNs fuel rest with
    | some h, some inner, some tl => some (h ++ inner ++ tl)
    | _, _, _ => none

/-- De-duplication keeping the first occurrence of each triple
(the contents of Python's `set(callsites)`; the set's iteration order
is unspecified, the stable sort below orders by end byte offset). -/
def dedupAux (seen : List (String × Nat × Nat)) :
    List (String × Nat × Nat) → List (String × Nat × Nat)
  | [] => []
  | x :: xs =>
    if seen.contains x then dedupAux seen xs else x :: dedupAux (x :: seen) xs

def dedupFirst (l : List (String × Nat × Nat)) : List (String × Nat × Nat) :=
  dedupAux [] l

/-- Stable insertion by end byte offset (`sorted(..., key=lambda x: x[1])`). -/
def insertByEnd (x : String × Nat × Nat) :
    List (String × Nat × Nat) → List (String × Nat × Nat)
  | [] => [x]
  | y :: ys => if x.2.1 < y.2.1 then x :: y :: ys else y :: insertByEnd x ys

def sortByEnd : List (String × Nat × Nat) → List (String × Nat × Nat)
  | [] => []
  | x :: xs => insertByEnd x (sortByEnd xs)

/-- Lines 356-361: collect the raw triples from the function root's
children, de-duplicate, sort by end offset and keep (name, line). -/
def computeBaseCallsites (fns : List (String × FunctionDefinition))
    (fuel : Nat) (f : FunctionDefinition) : Option (List (String × Nat)) :=
  match processCallsitesChildren fns f.namespace_or_class fuel f.root.children with
  | none => none
  | some cs => some ((sortByEnd (dedupFirst cs)).map (fun x => (x.1, x.2.2)))

/-- `FunctionDefinition.extract_callsites` (lines 269-366): populate
`base_callsites` when empty, then populate `detailed_callsites` from
`base_callsites` when empty. -/
def extract_callsites (fns : List (String × FunctionDefinition))
    (fuel : Nat) (f : FunctionDefinition) : Option FunctionDefinition :=
  match (if f.base_callsites.isEmpty then computeBaseCallsites fns fuel f
         else some f.base_callsites) with
  | none => none
  | some base =>
    some { f with
           base_callsites := base,
           detailed_callsites :=
             if f.detailed_callsites.isEmpty then
               base.map (fun p => (f.parent_file ++ ":" ++ toString p.2 ++ ",1", p.1))
             else f.detailed_callsites }

/-! ## Aggregation pass (`Project.dump_module_logic`, map part) -/

/-- Python dict insertion: last write wins, the original position of an
existing key is kept. -/
def dictInsert (m : List (String × FunctionDefinition)) (k : String)
    (v : FunctionDefinition) : List (String × FunctionDefinition) :=
  if m.any (fun p => p.1 == k) then
    m.map (fun p => if p.1 == k then (k, v) else p)
  else m ++ [(k, v)]

/-- Lines 383-402: the global simple-name-keyed function map built by
`dump_module_logic` (collisions silently overwritten). -/
def build_all_functions (proj : Project) : List (String × FunctionDefinition) :=
  proj.source_code_files.foldl
    (fun m sc => sc.func_defs.foldl (fun m2 f => dictInsert m2 f.name f) m) []

/-! ## Function depth (`Project.calculate_function_depth`) -/

/-- One pass of the callsite loop of `_recursive_function_depth`
(lines 577-587), threading the (depth, visited) state left to right;
`recurse` is the recursive call on a resolved, not-yet-visited callee. -/
def depthLoop (proj : Project)
    (recurse : FunctionDefinition → List String → Nat × List String) :
    List (String × Nat) → Nat → List String → Nat × List String
  | [], depth, v => (depth, v)
  | cs :: rest, depth, v =>
    match find_source_with_func_def proj cs.1 with
    | some tgt =>
      if v.contains tgt.2.name then depthLoop proj recurse rest (max depth 1) v
      else
        let r := recurse tgt.2 v
        depthLoop proj recurse rest (max depth (r.1 + 1)) r.2
    | none => depthLoop proj recurse rest depth (v ++ [cs.1])

/-- `_recursive_function_depth` (lines 570-587) with explicit fuel; the
shared mutable `visited` list is threaded through the whole
computation.  The Python recursion always terminates because every
recursive call is guarded by the visited check, so any fuel of at least
the number of project functions plus one computes the same value. -/
def recDepth (proj : Project) : Nat → FunctionDefinition → List String → Nat × List String
  | 0, _, v => (0, v)
  | fuel + 1, f, v =>
    if f.base_callsites.length == 0 then (0, v)
    else depthLoop proj (recDepth proj fuel) f.base_callsites 0 (v ++ [f.name])

def projFuncCount (proj : Project) : Nat :=
  (proj.source_code_files.map (fun sc => sc.func_defs.length)).sum

/-- `Project.calculate_function_depth` (lines 566-592). -/
def calculate_function_depth (proj : Project) (target : FunctionDefinition) : Nat :=
  (recDepth proj (projFuncCount proj + 1) target []).1

/-! ## Call-tree rendering (`Project.extract_calltree`) -/

/-- The callsite loop of `extract_calltree` (lines 504-510), threading
the rendered string and the shared visited set through the children. -/
def calltreeLoop
    (recurse : String → String → List String → Int → Option (String × List String)) :
    String → List (String × Nat) → String → List String → Option (String × List String)
  | _, [], acc, v => some (acc, v)
  | sf, cs :: rest, acc, v =>
    match recurse sf cs.1 v (Int.ofNat cs.2) with
    | none => none
    | some (s, v2) => calltreeLoop recurse sf rest (acc ++ s) v2

/-- The qualified name printed for a call-tree entry (lines 480-486):
the resolved function's qualifier-prefixed name, or the query string
itself when unresolved. -/
def calltreeFuncName (fmap : List (String × FunctionDefinition)) (function : String) :
    String :=
  match getFunctionNodeGlobal function fmap false with
  | some fn =>
    if fn.namespace_or_class != "" then fn.namespace_or_class ++ "::" ++ fn.name
    else fn.name
  | none => function

/-- One rendered call-tree line (lines 490-498). -/
def calltreeLine (fmap : List (String × FunctionDefinition))
    (function sf : String) (depth : Nat) (line_number : Int) : String :=
  repeatStr "  " depth ++ calltreeFuncName fmap function ++ " " ++ sf
    ++ " " ++ toString line_number ++ "\n"

/-- `Project.extract_calltree` (lines 456-512) with explicit fuel.
Returns the rendered string together with the updated visited set;
`none` models the `AttributeError` raised at line 479 when the
`all_functions` attribute does not exist (the aggregation pass has not
run), or fuel exhaustion. -/
def extract_calltree (proj : Project) :
    Nat → String → Option SourceCodeFile → String → List String → Nat → Int →
    Option (String × List String)
  | 0, _, _, _, _, _, _ => none
  | fuel + 1, source_file, sc0, function, visited, depth, line_number =>
    if function == "" then some ("", visited)
    else
      let source_code :=
        match sc0 with
        | some sc => some sc
        | none => (find_source_with_func_def proj function).map Prod.fst
      match proj.all_functions with
      | none => none
      | some fmap =>
        let func_node := getFunctionNodeGlobal function fmap false
        let line := calltreeLine fmap function source_file depth line_number
        if visited.contains function || func_node.isNone || source_code.isNone then
          some (line, visited)
        else
          match func_node, source_code with
          | some fn, some sc =>
            calltreeLoop
              (fun sf f v ln => extract_calltree proj fuel sf none f v (depth + 1) ln)
              sc.source_file fn.base_callsites line (visited ++ [function])
          | _, _ => some (line, visited)

/-- Rendering following the specification's words for the cycle guard
("recursion stops upon revisiting a function name already in the
current path"): the visited set is scoped to the path from the root,
so sibling subtrees do not affect each other.  Written only to be
compared with `extract_calltree`; the global map is passed explicitly. -/
def calltreeSpecScoped (proj : Project) (fmap : List (String × FunctionDefinition)) :
    Nat → String → String → List String → Nat → Int → String
  | 0, _, _, _, _, _ => ""
  | fuel + 1, source_file, function, path, depth, line_number =>
    if function == "" then ""
    else
      let source_code := (find_source_with_func_def proj function).map Prod.fst
      let func_node := getFunctionNodeGlobal function fmap false
      let line := calltreeLine fmap function source_file depth line_number
      if path.contains function || func_node.isNone || source_code.isNone then line
      else
        match func_node, source_code with
        | some fn, some sc =>
          line ++ (fn.base_callsites.map (fun cs =>
            calltreeSpecScoped proj fmap fuel sc.source_file cs.1
              (path ++ [function]) (depth + 1) (Int.ofNat cs.2))).foldl (· ++ ·) ""
        | _, _ => line

/-! ## Concrete inputs used by the claims -/

/-- A node with no children. -/
def leafNode (kind text : String) : Node :=
  Node.mk kind text 0 0 true Children.nil

/-- `obj.m` — a field expression ending at byte 10. -/
def fieldNode1 : Node :=
  Node.mk "field_expression" "obj.m" 0 10 true
    (Children.cons (some "argument") (leafNode "identifier" "obj")
      (Children.cons (some "field") (leafNode "field_identifier" "m") Children.nil))

/-- `obj.m(x)` — a call expression ending at byte 20 whose callee is
`fieldNode1`. -/
def callNode1 : Node :=
  Node.mk "call_expression" "obj.m(x)" 0 20 true
    (Children.cons (some "function") fieldNode1 Children.nil)

def bodyNode1 : Node :=
  Node.mk "compound_statement" "{ obj.m(x); }" 0 22 true
    (Children.cons none callNode1 Children.nil)

/-- A function definition whose body contains exactly the call
`obj.m(x)`. -/
def rootNode1 : Node :=
  Node.mk "function_definition" "void caller() { obj.m(x); }" 0 27 true
    (Children.cons (some "type") (leafNode "primitive_type" "void")
      (Children.cons (some "declarator") (leafNode "function_declarator" "caller()")
        (Children.cons (some "body") bodyNode1 Children.nil)))

def fdef1 : FunctionDefinition :=
  { name := "caller", namespace_or_class := "", return_type := "void",
    sig := "caller()", root := rootNode1, parent_file := "test.cpp" }

/-- `FunctionDefinition.__init__` + `_extract_information` +
`_process_complexity` + `_process_icount`: construct the function
record from a function-definition node; `none` when construction
raises. -/
def buildFunctionDefinition (fuel : Nat) (root : Node) (ns file : String) :
    Option FunctionDefinition :=
  (extractInformation fuel root ns).map (fun info =>
    { name := info.name, namespace_or_class := info.namespace_or_class,
      return_type := info.return_type, sig := info.sig,
      arg_names := info.arg_names, arg_types := info.arg_types,
      complexity := nodeComplexity root, icount := nodeIcount root,
      root := root, parent_file := file })

/-- `SourceCodeFile.__init__` tree processing: collect the function
definitions of one parsed file (lines 52-55, 63-98). -/
def processSourceFile (fuel : Nat) (file : String) (root : Node) :
    Option (List FunctionDefinition) :=
  (processTreeList fuel root.children "").mapM
    (fun p => buildFunctionDefinition fuel p.2 p.1 file)

/-! ## Concrete inputs for the depth and calltree claims.
The function records below are built directly with their
`base_callsites` data (their syntax-tree root is irrelevant to the
depth/calltree computations). -/

def dummyRoot : Node := leafNode "function_definition" ""

def mkFun (name ns file : String) (base : List (String × Nat)) : FunctionDefinition :=
  { name := name, namespace_or_class := ns, return_type := "void",
    sig := name, root := dummyRoot, parent_file := file,
    base_callsites := base }

/-- `f` whose single callsite resolves to nothing. -/
def fU : FunctionDefinition := mkFun "f" "" "u.cpp" [("nosuch", 1)]

def projU : Project := { source_code_files := [⟨"u.cpp", [fU]⟩] }

/-- `f` calling `g`, `g` callsite-free. -/
def fF : FunctionDefinition := mkFun "f" "" "fg.cpp" [("g", 2)]

def fG : FunctionDefinition := mkFun "g" "" "fg.cpp" []

def projFG : Project := { source_code_files := [⟨"fg.cpp", [fF, fG]⟩] }

/-- Mutually recursive `f` and `g`. -/
def fM : FunctionDefinition := mkFun "f" "" "mr.cpp" [("g", 1)]

def gM : FunctionDefinition := mkFun "g" "" "mr.cpp" [("f", 2)]

def projMR : Project := { source_code_files := [⟨"mr.cpp", [fM, gM]⟩] }

/-- C10 scenario: `f` first calls `n` (ambiguous across two files, so
unresolved), then `A::n` (resolving to the function named `n`). -/
def f10 : FunctionDefinition := mkFun "f" "" "main.cpp" [("n", 1), ("A::n", 2)]

def p10 : FunctionDefinition := mkFun "p" "" "main.cpp" []

def fAn : FunctionDefinition := mkFun "n" "A" "a.cpp" [("p", 3)]

def fBn : FunctionDefinition := mkFun "n" "B" "b.cpp" []

def proj10 : Project :=
  { source_code_files := [⟨"main.cpp", [f10, p10]⟩, ⟨"a.cpp", [fAn]⟩, ⟨"b.cpp", [fBn]⟩] }

/-- C6 scenario: `root` calls `a` and `b`; both `a` and `b` call `c`;
`c` calls `d`. -/
def fRoot6 : FunctionDefinition := mkFun "root" "" "F.cpp" [("a", 1), ("b", 2)]

def fA6 : FunctionDefinition := mkFun "a" "" "F.cpp" [("c", 3)]

def fB6 : FunctionDefinition := mkFun "b" "" "F.cpp" [("c", 4)]

def fC6 : FunctionDefinition := mkFun "c" "" "F.cpp" [("d", 5)]

def fD6 : FunctionDefinition := mkFun "d" "" "F.cpp" []

def file6 : SourceCodeFile := ⟨"F.cpp", [fRoot6, fA6, fB6, fC6, fD6]⟩

def fmap6 : List (String × FunctionDefinition) :=
  [("root", fRoot6), ("a", fA6), ("b", fB6), ("c", fC6), ("d", fD6)]

def proj6 : Project := { source_code_files := [file6], all_functions := some fmap6 }

/-- The same project before the aggregation pass has run. -/
def proj9 : Project := { source_code_files := [file6] }

/-! ## Concrete trees for the extraction claims (C5, C7) -/

def plistEmpty : Node := Node.mk "parameter_list" "()" 0 0 true Children.nil

/-- `void f()` nested in `namespace a { namespace b { ... } }`. -/
def fdecl7 : Node :=
  Node.mk "function_declarator" "f()" 0 0 true
    (Children.cons (some "declarator") (leafNode "identifier" "f")
      (Children.cons (some "parameters") plistEmpty Children.nil))

def funcDef7 : Node :=
  Node.mk "function_definition" "void f() {}" 0 0 true
    (Children.cons (some "type") (leafNode "primitive_type" "void")
      (Children.cons (some "declarator") fdecl7 Children.nil))

def declListB : Node :=
  Node.mk "declaration_list" "{ void f() {} }" 0 0 true
    (Children.cons none funcDef7 Children.nil)

def nsB : Node :=
  Node.mk "namespace_definition" "namespace b { void f() {} }" 0 0 true
    (Children.cons none (leafNode "namespace" "namespace")
      (Children.cons (some "name") (leafNode "namespace_identifier" "b")
        (Children.cons (some "body") declListB Children.nil)))

def declListA : Node :=
  Node.mk "declaration_list" "{ namespace b { void f() {} } }" 0 0 true
    (Children.cons none nsB Children.nil)

def nsA : Node :=
  Node.mk "namespace_definition" "namespace a { namespace b { void f() {} } }" 0 0 true
    (Children.cons none (leafNode "namespace" "namespace")
      (Children.cons (some "name") (leafNode "namespace_identifier" "a")
        (Children.cons (some "body") declListA Children.nil)))

def rootT7 : Node :=
  Node.mk "translation_unit" "namespace a { namespace b { void f() {} } }" 0 0 true
    (Children.cons none nsA Children.nil)

/-- `int a::b::f()` with no enclosing namespace. -/
def fdeclQ : Node :=
  Node.mk "function_declarator" "a::b::f()" 0 0 true
    (Children.cons (some "declarator") (leafNode "qualified_identifier" "a::b::f")
      (Children.cons (some "parameters") plistEmpty Children.nil))

def funcDefQ : Node :=
  Node.mk "function_definition" "int a::b::f() {}" 0 0 true
    (Children.cons (some "type") (leafNode "primitive_type" "int")
      (Children.cons (some "declarator") fdeclQ Children.nil))

/-- A function-definition node with no `type` field. -/
def fdecl5a : Node :=
  Node.mk "function_declarator" "f()" 0 0 true
    (Children.cons (some "declarator") (leafNode "identifier" "f")
      (Children.cons (some "parameters") plistEmpty Children.nil))

def n5a : Node :=
  Node.mk "function_definition" "f() {}" 0 0 true
    (Children.cons (some "declarator") fdecl5a Children.nil)

/-- A function-definition node whose declarator holds no identifier. -/
def fdecl5b : Node :=
  Node.mk "function_declarator" "()" 0 0 true
    (Children.cons (some "parameters") plistEmpty Children.nil)

def n5b : Node :=
  Node.mk "function_definition" "int () {}" 0 0 true
    (Children.cons (some "type") (leafNode "primitive_type" "int")
      (Children.cons (some "declarator") fdecl5b Children.nil))

/-- A function-definition node whose declarator is a bare identifier:
no parameter list exists anywhere. -/
def n5c : Node :=
  Node.mk "function_definition" "int f;" 0 0 true
    (Children.cons (some "type") (leafNode "primitive_type" "int")
      (Children.cons (some "declarator") (leafNode "identifier" "f") Children.nil))

/-! ## Concrete inputs for the resolution claim (C8) -/

def fBar : FunctionDefinition := mkFun "bar" "Foo" "foo.cpp" []

def fBaz : FunctionDefinition := mkFun "baz" "" "foo.cpp" []

def fmap8 : List (String × FunctionDefinition) := [("Foo::bar", fBar), ("baz", fBaz)]

def unit8 : SourceCodeFile := ⟨"foo.cpp", [fBar]⟩


/-! # Claims -/

/-- The result of the first `extract_callsites` call on `fdef1`. -/
def fdef1After : FunctionDefinition :=
  { fdef1 with base_callsites := [("m", 1)],
               detailed_callsites := [("test.cpp:1,1", "m")] }

/-- C1 counterexample: for the call expression `obj.m(x)` (call node
ends at byte 20, member-access node at byte 10) the extractor records
BOTH raw entries at the member-access node's end offset 10 — no entry
carries the call-expression's end offset 20 — and after de-duplication
only a single `("m", 1)` callsite remains, contradicting the claim that
one entry is recorded at the call node's end offset and that both
survive whenever the two offsets differ. -/
theorem C1_counterexample :
    callNode1.childByFieldName "function" = some fieldNode1
    ∧ fieldNode1.kind = "field_expression"
    ∧ fieldNode1.endByte = 10 ∧ callNode1.endByte = 20
    ∧ processInvoke [] "" 10 callNode1 = some [("m", 10, 1), ("m", 10, 1)]
    ∧ (("m", 20, 1) : String × Nat × Nat) ∉ [(("m", 10, 1) : String × Nat × Nat), ("m", 10, 1)]
    ∧ extract_callsites [] 10 fdef1 = some fdef1After
    ∧ fdef1After.base_callsites = [("m", 1)] :=
  ⟨rfl, rfl, rfl, rfl, rfl, by decide, rfl, rfl⟩

/-- C1 (amended): for every call expression whose callee is a
member-access (`field_expression`) node with a non-empty resolved
callee name, callsite extraction records two identical raw
(name, end-offset, line) entries, both at the member-access node's end
byte offset (the call expression's own end offset is not used), and the
after-the-fact de-duplication collapses them into a single entry. -/
theorem C1_amended :
    (∀ (fns : List (String × FunctionDefinition)) (selfNs : String) (fuel : Nat)
       (expr func : Node) (t : Option String) (nm : String),
       expr.childByFieldName "function" = some func →
       func.kind = "field_expression" →
       processFieldExprReturnType fns selfNs fuel func = some (t, nm) →
       nm ≠ "" →
       processInvoke fns selfNs fuel expr =
         some [(nm, func.endByte, func.startRow + 1),
               (nm, func.endByte, func.startRow + 1)])
    ∧ (∀ x : String × Nat × Nat, dedupFirst [x, x] = [x])
    ∧ (extract_callsites [] 10 fdef1).map (fun f => f.base_callsites) = some [("m", 1)] := by
  refine ⟨?_, ?_, rfl⟩
  · intro fns selfNs fuel expr func t nm h1 h2 h3 h4
    simp only [processInvoke, h1, h2, h3]
    simp [h4]
  · intro x
    simp [dedupFirst, dedupAux]

/-- C1 witness: the amended theorem applied to the concrete call
`obj.m(x)`. -/
theorem C1_witness :
    processInvoke [] "" 10 callNode1 = some [("m", 10, 1), ("m", 10, 1)] :=
  C1_amended.1 [] "" 10 callNode1 fieldNode1 none "m" rfl rfl rfl (by decide)

/-- C2 counterexample: `fU` has one base callsite (to the unresolvable
name `nosuch`) yet its computed depth is 0, contradicting the claim
that every function with at least one base callsite gets depth
`1 + max over callsites of the callee contribution` (which is at least
1). -/
theorem C2_counterexample :
    fU.base_callsites.length = 1 ∧ calculate_function_depth projU fU = 0 :=
  ⟨rfl, rfl⟩

/-- C2 (amended): `calculate_function_depth` returns 0 for every
function whose base-callsite list is empty; otherwise it folds over the
callsites, taking the maximum per-callsite contribution while threading
the shared visited list: a callee resolving to a not-yet-visited
function contributes `1 + depth of the callee`, a callee resolving to
an already-visited function contributes exactly 1, and an unresolvable
callee contributes nothing (so a function all of whose callsites are
unresolvable has depth 0, not 1); in particular a function `f` whose
only callsite resolves to a callsite-free `g` has depth 1. -/
theorem C2_amended :
    (∀ (proj : Project) (f : FunctionDefinition),
       f.base_callsites = [] → calculate_function_depth proj f = 0)
    ∧ (∀ (proj : Project) recurse (d : Nat) (v : List String),
       depthLoop proj recurse [] d v = (d, v))
    ∧ (∀ (proj : Project) recurse (n : String) (l : Nat) rest (d : Nat) (v : List String),
       find_source_with_func_def proj n = none →
       depthLoop proj recurse ((n, l) :: rest) d v =
         depthLoop proj recurse rest d (v ++ [n]))
    ∧ (∀ (proj : Project) recurse (n : String) (l : Nat) rest (d : Nat) (v : List String)
         (sc : SourceCodeFile) (tgt : FunctionDefinition),
       find_source_with_func_def proj n = some (sc, tgt) →
       v.contains tgt.name = true →
       depthLoop proj recurse ((n, l) :: rest) d v =
         depthLoop proj recurse rest (max d 1) v)
    ∧ (∀ (proj : Project) recurse (n : String) (l : Nat) rest (d : Nat) (v : List String)
         (sc : SourceCodeFile) (tgt : FunctionDefinition),
       find_source_with_func_def proj n = some (sc, tgt) →
       v.contains tgt.name = false →
       depthLoop proj recurse ((n, l) :: rest) d v =
         depthLoop proj recurse rest (max d ((recurse tgt v).1 + 1)) (recurse tgt v).2)
    ∧ (∀ (proj : Project) (fuel : Nat) (f : FunctionDefinition) (v : List String),
       f.base_callsites ≠ [] →
       recDepth proj (fuel + 1) f v =
         depthLoop proj (recDepth proj fuel) f.base_callsites 0 (v ++ [f.name]))
    ∧ calculate_function_depth projFG fF = 1 := by
  refine ⟨?_, ?_, ?_, ?_, ?_, ?_, rfl⟩
  · intro proj f h
    simp [calculate_function_depth, recDepth, h]
  · intro proj recurse d v
    simp [depthLoop]
  · intro proj recurse n l rest d v h
    simp only [depthLoop, h]
  · intro proj recurse n l rest d v sc tgt h1 h2
    simp only [depthLoop, h1, h2, if_true]
  · intro proj recurse n l rest d v sc tgt h1 h2
    simp only [depthLoop, h1, h2]
    simp
  · intro proj fuel f v h
    simp [recDepth, List.length_eq_zero, h]

/-- C2 witness: the amended theorem's first clause applied to the
callsite-free function `fG`. -/
theorem C2_witness : calculate_function_depth projFG fG = 0 :=
  C2_amended.1 projFG fG rfl

/-- The callsite loop when every callsite resolves to an
already-visited function: each such callsite contributes exactly 1 and
the visited list is unchanged. -/
theorem depthLoop_all_visited (proj : Project)
    (recurse : FunctionDefinition → List String → Nat × List String) :
    ∀ (l : List (String × Nat)) (d : Nat) (v : List String),
    (∀ cs ∈ l, ∃ sc tgt, find_source_with_func_def proj cs.1 = some (sc, tgt)
        ∧ v.contains tgt.name = true) →
    depthLoop proj recurse l d v = ((if l.isEmpty then d else max d 1), v) := by
  intro l
  induction l with
  | nil => intro d v _; simp [depthLoop]
  | cons cs rest ih =>
    intro d v h
    obtain ⟨sc, tgt, hfind, hvis⟩ := h cs (List.mem_cons_self cs rest)
    have hstep : depthLoop proj recurse (cs :: rest) d v =
        depthLoop proj recurse rest (max d 1) v := by
      simp only [depthLoop, hfind, hvis, if_true]
    rw [hstep, ih (max d 1) v (fun cs2 h2 => h cs2 (List.mem_cons_of_mem cs h2))]
    cases rest with
    | nil => simp
    | cons x t => simp [Nat.max_assoc]

/-- Entering `b` with `a` already on the visited trail, when every
callsite of `b` resolves to `a`: the recursion is cut at the re-entry
(each callsite contributes exactly 1) and `b`'s depth is exactly 1. -/
theorem recDepth_cut (proj : Project) (a b : FunctionDefinition)
    (hb : b.base_callsites ≠ [])
    (hba : ∀ cs ∈ b.base_callsites, ∃ sc,
        find_source_with_func_def proj cs.1 = some (sc, a)) :
    ∀ (fuel : Nat) (v : List String), v.contains a.name = true →
    recDepth proj (fuel + 1) b v = (1, v ++ [b.name]) := by
  intro fuel v hv
  have hlen : (b.base_callsites.length == 0) = false := by
    cases hbc : b.base_callsites with
    | nil => exact absurd hbc hb
    | cons x t => simp
  have hstep : recDepth proj (fuel + 1) b v =
      depthLoop proj (recDepth proj fuel) b.base_callsites 0 (v ++ [b.name]) := by
    simp [recDepth, hlen]
  have hall : ∀ cs ∈ b.base_callsites, ∃ sc tgt,
      find_source_with_func_def proj cs.1 = some (sc, tgt)
      ∧ (v ++ [b.name]).contains tgt.name = true := by
    intro cs hcs
    obtain ⟨sc, hfind⟩ := hba cs hcs
    refine ⟨sc, a, hfind, ?_⟩
    simp at hv ⊢
    exact Or.inl hv
  rw [hstep, depthLoop_all_visited proj _ b.base_callsites 0 (v ++ [b.name]) hall]
  have hie : b.base_callsites.isEmpty = false := by
    cases hbc : b.base_callsites with
    | nil => exact absurd hbc hb
    | cons x t => rfl
  rw [hie]
  simp

/-- The top-level depth of the first member of a mutually recursive
pair: the partner is explored once (contributing 2) and every later
callsite hits the visited trail (contributing 1), giving exactly 2. -/
theorem recDepth_mutual (proj : Project) (a b : FunctionDefinition)
    (ha : a.base_callsites ≠ []) (hb : b.base_callsites ≠ [])
    (hne : a.name ≠ b.name)
    (hab : ∀ cs ∈ a.base_callsites, ∃ sc,
        find_source_with_func_def proj cs.1 = some (sc, b))
    (hba : ∀ cs ∈ b.base_callsites, ∃ sc,
        find_source_with_func_def proj cs.1 = some (sc, a)) :
    ∀ fuel : Nat, recDepth proj (fuel + 2) a [] = (2, [a.name, b.name]) := by
  intro fuel
  have hlen : (a.base_callsites.length == 0) = false := by
    cases hac : a.base_callsites with
    | nil => exact absurd hac ha
    | cons x t => simp
  have hstep : recDepth proj (fuel + 2) a [] =
      depthLoop proj (recDepth proj (fuel + 1)) a.base_callsites 0 [a.name] := by
    simp [recDepth, hlen]
  obtain ⟨cs, rest, hcons⟩ := List.exists_cons_of_ne_nil ha
  obtain ⟨sc, hfind⟩ := hab cs (by rw [hcons]; exact List.mem_cons_self cs rest)
  have hnc : ([a.name].contains b.name) = false := by
    simp only [List.contains_cons, List.contains_nil, Bool.or_false]
    exact beq_eq_false_iff_ne.mpr (fun h2 => hne h2.symm)
  have hcut := recDepth_cut proj a b hb hba fuel [a.name] (by simp)
  have h1 : depthLoop proj (recDepth proj (fuel + 1)) (cs :: rest) 0 [a.name] =
      depthLoop proj (recDepth proj (fuel + 1)) rest 2 [a.name, b.name] := by
    simp only [depthLoop, hfind, hnc, Bool.false_eq_true, if_false, hcut]
    simp
  have hall : ∀ cs2 ∈ rest, ∃ sc2 tgt,
      find_source_with_func_def proj cs2.1 = some (sc2, tgt)
      ∧ ([a.name, b.name]).contains tgt.name = true := by
    intro cs2 h2
    obtain ⟨sc2, hf2⟩ := hab cs2 (by rw [hcons]; exact List.mem_cons_of_mem cs h2)
    exact ⟨sc2, b, hf2, by simp⟩
  rw [hstep, hcons, h1, depthLoop_all_visited proj _ rest 2 [a.name, b.name] hall]
  cases rest with
  | nil => simp
  | cons x t => simp

/-- A per-unit lookup can only succeed on a unit with at least one
function definition. -/
theorem get_function_node_ne_nil (sc : SourceCodeFile) (n : String) (ex : Bool)
    (f : FunctionDefinition) (h : sc.get_function_node n ex = some f) :
    sc.func_defs ≠ [] := by
  intro hnil
  simp [SourceCodeFile.get_function_node, hnil] at h

/-- A successful `findPass` exhibits a unit whose lookup succeeded. -/
theorem findPass_some (proj : Project) (n : String) (ex : Bool)
    (m : SourceCodeFile × FunctionDefinition) (h : findPass proj n ex = some m) :
    ∃ sc ∈ proj.source_code_files, ∃ f, sc.get_function_node n ex = some f := by
  unfold findPass at h
  split at h
  · rename_i m2 heq
    have hm : m2 ∈ proj.source_code_files.filterMap
        (fun sc => (sc.get_function_node n ex).map (fun f => (sc, f))) := by
      rw [heq]; exact List.mem_singleton_self m2
    obtain ⟨sc, hsc, hmap⟩ := List.mem_filterMap.mp hm
    cases hg : sc.get_function_node n ex with
    | none => rw [hg] at hmap; exact Option.noConfusion hmap
    | some f => exact ⟨sc, hsc, f, hg⟩
  · exact Option.noConfusion h

/-- A resolvable name exhibits a unit with at least one function. -/
theorem find_source_files_nonempty (proj : Project) (n : String)
    (m : SourceCodeFile × FunctionDefinition)
    (h : find_source_with_func_def proj n = some m) :
    ∃ sc ∈ proj.source_code_files, sc.func_defs ≠ [] := by
  unfold find_source_with_func_def at h
  split at h
  · rename_i m2 heq
    obtain ⟨sc, hsc, f, hg⟩ := findPass_some proj n true m2 heq
    exact ⟨sc, hsc, get_function_node_ne_nil sc n true f hg⟩
  · obtain ⟨sc, hsc, f, hg⟩ := findPass_some proj n false m h
    exact ⟨sc, hsc, get_function_node_ne_nil sc n false f hg⟩

/-- A project containing a non-empty unit has a positive function
count, so the default depth fuel is at least 2. -/
theorem projFuncCount_pos (proj : Project) (sc : SourceCodeFile)
    (hsc : sc ∈ proj.source_code_files) (hne : sc.func_defs ≠ []) :
    1 ≤ projFuncCount proj := by
  have h1 : 1 ≤ sc.func_defs.length := List.length_pos.mpr hne
  have h2 : sc.func_defs.length ∈
      proj.source_code_files.map (fun s => s.func_defs.length) :=
    List.mem_map_of_mem _ hsc
  exact le_trans h1 (List.single_le_sum (fun x _ => Nat.zero_le x) _ h2)

/-- C3: for every project and every pair of mutually recursive
functions `f` and `g` — distinct names, every callsite of `f` resolving
to `g` and every callsite of `g` resolving to `f` — the depth
computation terminates on both with the same finite value 2 at every
sufficient fuel (fuel-independence formalizes termination of the
unbounded Python recursion), the re-entrant callee at the point of
cycle re-entry contributes exactly 1 rather than recursing further
(entering either member with the other already on the visited trail
yields depth exactly 1), and `calculate_function_depth` returns 2 for
both members. -/
theorem C3_cycle_depth (proj : Project) (f g : FunctionDefinition)
    (hf : f.base_callsites ≠ []) (hg : g.base_callsites ≠ [])
    (hne : f.name ≠ g.name)
    (hfg : ∀ cs ∈ f.base_callsites, ∃ sc,
        find_source_with_func_def proj cs.1 = some (sc, g))
    (hgf : ∀ cs ∈ g.base_callsites, ∃ sc,
        find_source_with_func_def proj cs.1 = some (sc, f)) :
    (∀ fuel : Nat, recDepth proj (fuel + 2) f [] = (2, [f.name, g.name]))
    ∧ (∀ fuel : Nat, recDepth proj (fuel + 2) g [] = (2, [g.name, f.name]))
    ∧ (∀ (fuel : Nat) (v : List String), v.contains f.name = true →
        recDepth proj (fuel + 1) g v = (1, v ++ [g.name]))
    ∧ (∀ (fuel : Nat) (v : List String), v.contains g.name = true →
        recDepth proj (fuel + 1) f v = (1, v ++ [f.name]))
    ∧ calculate_function_depth proj f = 2
    ∧ calculate_function_depth proj g = 2 := by
  have hcalc : ∀ (a b : FunctionDefinition), a.base_callsites ≠ [] →
      b.base_callsites ≠ [] → a.name ≠ b.name →
      (∀ cs ∈ a.base_callsites, ∃ sc,
        find_source_with_func_def proj cs.1 = some (sc, b)) →
      (∀ cs ∈ b.base_callsites, ∃ sc,
        find_source_with_func_def proj cs.1 = some (sc, a)) →
      calculate_function_depth proj a = 2 := by
    intro a b ha hb hab2 hab hba
    obtain ⟨cs, rest, hcons⟩ := List.exists_cons_of_ne_nil ha
    obtain ⟨sc, hfind⟩ := hab cs (by rw [hcons]; exact List.mem_cons_self cs rest)
    obtain ⟨sc2, hsc2, hne2⟩ := find_source_files_nonempty proj cs.1 (sc, b) hfind
    obtain ⟨k, hk⟩ := Nat.exists_eq_add_of_le (projFuncCount_pos proj sc2 hsc2 hne2)
    have hfuel : projFuncCount proj + 1 = k + 2 := by omega
    unfold calculate_function_depth
    rw [hfuel, recDepth_mutual proj a b ha hb hab2 hab hba k]
  exact ⟨recDepth_mutual proj f g hf hg hne hfg hgf,
         recDepth_mutual proj g f hg hf (Ne.symm hne) hgf hfg,
         recDepth_cut proj f g hg hgf,
         recDepth_cut proj g f hf hfg,
         hcalc f g hf hg hne hfg hgf,
         hcalc g f hg hf (Ne.symm hne) hgf hfg⟩

/-- C3 witness: the theorem applied to the concrete mutually recursive
pair `fM` (calling `g`) and `gM` (calling `f`) in `projMR`. -/
theorem C3_witness :
    recDepth projMR 2 fM [] = (2, ["f", "g"])
    ∧ (recDepth projMR 1 gM ["f"]).1 = 1
    ∧ calculate_function_depth projMR fM = 2
    ∧ calculate_function_depth projMR gM = 2 := by
  have hfg : ∀ cs ∈ fM.base_callsites, ∃ sc,
      find_source_with_func_def projMR cs.1 = some (sc, gM) := by
    intro cs hcs
    have hcs2 : cs = ("g", 1) := List.mem_singleton.mp hcs
    subst hcs2
    exact ⟨⟨"mr.cpp", [fM, gM]⟩, rfl⟩
  have hgf : ∀ cs ∈ gM.base_callsites, ∃ sc,
      find_source_with_func_def projMR cs.1 = some (sc, fM) := by
    intro cs hcs
    have hcs2 : cs = ("f", 2) := List.mem_singleton.mp hcs
    subst hcs2
    exact ⟨⟨"mr.cpp", [fM, gM]⟩, rfl⟩
  have H := C3_cycle_depth projMR fM gM (by decide) (by decide) (by decide) hfg hgf
  exact ⟨H.1 0, by rw [H.2.2.1 0 ["f"] (by decide)], H.2.2.2.2.1, H.2.2.2.2.2⟩

/-- Unfolding of `extract_callsites` on a record whose callsite fields
are explicit: the recomputation reads only the unchanged
namespace/root/file fields (definitional, via structure eta). -/
theorem extract_callsites_update (fns : List (String × FunctionDefinition))
    (fuel : Nat) (f : FunctionDefinition) (b : List (String × Nat))
    (d : List (String × String)) :
    extract_callsites fns fuel { f with base_callsites := b, detailed_callsites := d } =
      match (if b.isEmpty then computeBaseCallsites fns fuel f else some b) with
      | none => none
      | some base =>
        some { f with
               base_callsites := base,
               detailed_callsites :=
                 if d.isEmpty then
                   base.map (fun p => (f.parent_file ++ ":" ++ toString p.2 ++ ",1", p.1))
                 else d } := rfl

/-- C4: callsite extraction is idempotent: if a first call on `f`
returns `f2`, a second call on `f2` (same global map, same fuel)
returns `f2` unchanged — in particular `base_callsites` and
`detailed_callsites` are exactly the lists the first call produced. -/
theorem C4_idempotent (fns : List (String × FunctionDefinition)) (fuel : Nat)
    (f f2 : FunctionDefinition) (h : extract_callsites fns fuel f = some f2) :
    extract_callsites fns fuel f2 = some f2 := by
  rw [show extract_callsites fns fuel f =
        extract_callsites fns fuel
          { f with base_callsites := f.base_callsites,
                   detailed_callsites := f.detailed_callsites } from rfl,
      extract_callsites_update] at h
  split at h
  · exact Option.noConfusion h
  · rename_i base heq
    injection h with h2
    subst h2
    rw [extract_callsites_update]
    by_cases hb : base.isEmpty
    · have hbase : base = [] := by
        cases base with
        | nil => rfl
        | cons a l => simp [List.isEmpty] at hb
      subst hbase
      by_cases hfb : f.base_callsites.isEmpty
      · rw [if_pos hfb] at heq
        simp only [List.isEmpty_nil, if_true]
        rw [heq]
        by_cases hd : f.detailed_callsites.isEmpty
        · simp [hd]
        · simp [hd]
      · rw [if_neg hfb] at heq
        injection heq with heq2
        rw [heq2] at hfb
        simp at hfb
    · rw [if_neg hb]
      by_cases hd : f.detailed_callsites.isEmpty
      · simp only [hd, if_true]
        rw [ite_self]
      · simp [hd]

/-- C4 witness: the theorem applied to the concrete function `fdef1`,
whose first extraction yields `fdef1After`. -/
theorem C4_witness : extract_callsites [] 10 fdef1After = some fdef1After :=
  C4_idempotent [] 10 fdef1 fdef1After rfl

/-- A function-definition node with no `declarator` field at all. -/
def n5d : Node :=
  Node.mk "function_definition" "int ;" 0 0 true
    (Children.cons (some "type") (leafNode "primitive_type" "int") Children.nil)

/-- C5 counterexample: on the node `n5c`, whose declarator is a bare
identifier so that no parameter-list node exists anywhere, extraction
aborts (the Python code raises `AttributeError` at
`param_list_node.children`) instead of completing, contradicting the
claim that extraction completes for every input node. -/
theorem C5_counterexample : extractInformation 10 n5c "" = none := rfl

/-- C5 (amended): extraction degrades for a missing type field (return
type defaults to `"void"`) and for a missing declarator name (the name
is left empty), completing in both cases; but a node with no
parameter-list node under its declarator, or with no declarator field
at all, makes extraction abort rather than degrade. -/
theorem C5_amended :
    (extractInformation 10 n5a "").map (fun i => i.return_type) = some "void"
    ∧ (extractInformation 10 n5a "").isSome = true
    ∧ (extractInformation 10 n5b "").map (fun i => i.name) = some ""
    ∧ (extractInformation 10 n5b "").isSome = true
    ∧ extractInformation 10 n5c "" = none
    ∧ extractInformation 10 n5d "" = none :=
  ⟨rfl, rfl, rfl, rfl, rfl, rfl⟩

/-- C6 counterexample: in the project where `root` calls `a` and `b`,
both `a` and `b` call `c`, and `c` calls `d`, the code's rendering
expands `c` only under `a`: on the second, disjoint sibling path
through `b`, `c` is printed without its callees because the visited set
is shared across the whole rendering, not scoped to the current path —
the path-scoped rendering dictated by the claim produces a different
string (with `d` expanded under both occurrences of `c`). -/
theorem C6_counterexample :
    extract_calltree proj6 10 "F.cpp" none "root" [] 0 (-1) =
      some ("root F.cpp -1\n  a F.cpp 1\n    c F.cpp 3\n      d F.cpp 5\n  b F.cpp 2\n    c F.cpp 4\n",
            ["root", "a", "c", "d", "b"])
    ∧ calltreeSpecScoped proj6 fmap6 10 "F.cpp" "root" [] 0 (-1) =
      "root F.cpp -1\n  a F.cpp 1\n    c F.cpp 3\n      d F.cpp 5\n  b F.cpp 2\n    c F.cpp 4\n      d F.cpp 5\n"
    ∧ ("root F.cpp -1\n  a F.cpp 1\n    c F.cpp 3\n      d F.cpp 5\n  b F.cpp 2\n    c F.cpp 4\n" : String)
      ≠ "root F.cpp -1\n  a F.cpp 1\n    c F.cpp 3\n      d F.cpp 5\n  b F.cpp 2\n    c F.cpp 4\n      d F.cpp 5\n" :=
  ⟨rfl, rfl, by decide⟩

/-- C6 (amended): recursion in `extract_calltree` stops exactly when
the queried function name is already in the visited set accumulated
over the whole rendering so far (not just the current path), or when
the name fails to resolve to a known function or source unit; a
function already expanded anywhere earlier — including on a disjoint
sibling path — is printed without expanding its callees again. -/
theorem C6_amended :
    (∀ (proj : Project) (fuel : Nat) (sf : String) (sc0 : Option SourceCodeFile)
       (function : String) (visited : List String) (depth : Nat) (ln : Int)
       (fmap : List (String × FunctionDefinition)),
       proj.all_functions = some fmap →
       function ≠ "" →
       visited.contains function = true →
       extract_calltree proj (fuel + 1) sf sc0 function visited depth ln =
         some (calltreeLine fmap function sf depth ln, visited))
    ∧ (∀ (proj : Project) (fuel : Nat) (sf : String) (sc0 : Option SourceCodeFile)
       (function : String) (visited : List String) (depth : Nat) (ln : Int)
       (fmap : List (String × FunctionDefinition)),
       proj.all_functions = some fmap →
       function ≠ "" →
       getFunctionNodeGlobal function fmap false = none →
       extract_calltree proj (fuel + 1) sf sc0 function visited depth ln =
         some (calltreeLine fmap function sf depth ln, visited))
    ∧ (∀ (proj : Project) (fuel : Nat) (sf : String)
       (function : String) (visited : List String) (depth : Nat) (ln : Int)
       (fmap : List (String × FunctionDefinition)),
       proj.all_functions = some fmap →
       function ≠ "" →
       find_source_with_func_def proj function = none →
       extract_calltree proj (fuel + 1) sf none function visited depth ln =
         some (calltreeLine fmap function sf depth ln, visited))
    ∧ (∀ (proj : Project) (fuel : Nat) (sf : String) (sc : SourceCodeFile)
       (function : String) (visited : List String) (depth : Nat) (ln : Int)
       (fmap : List (String × FunctionDefinition)) (fn : FunctionDefinition),
       proj.all_functions = some fmap →
       function ≠ "" →
       visited.contains function = false →
       getFunctionNodeGlobal function fmap false = some fn →
       extract_calltree proj (fuel + 1) sf (some sc) function visited depth ln =
         calltreeLoop
           (fun sf2 f2 v2 ln2 => extract_calltree proj fuel sf2 none f2 v2 (depth + 1) ln2)
           sc.source_file fn.base_callsites
           (calltreeLine fmap function sf depth ln) (visited ++ [function]))
    ∧ extract_calltree proj6 10 "F.cpp" none "root" [] 0 (-1) =
      some ("root F.cpp -1\n  a F.cpp 1\n    c F.cpp 3\n      d F.cpp 5\n  b F.cpp 2\n    c F.cpp 4\n",
            ["root", "a", "c", "d", "b"]) := by
  refine ⟨?_, ?_, ?_, ?_, rfl⟩
  · intro proj fuel sf sc0 function visited depth ln fmap h1 h2 h3
    simp only [extract_calltree, h1, h3]
    simp [h2]
  · intro proj fuel sf sc0 function visited depth ln fmap h1 h2 h3
    simp only [extract_calltree, h1, h3]
    simp [h2]
  · intro proj fuel sf function visited depth ln fmap h1 h2 h3
    simp only [extract_calltree, h1, h3]
    simp [h2]
  · intro proj fuel sf sc function visited depth ln fmap fn h1 h2 h3 h4
    simp only [extract_calltree, h1, h3, h4]
    simp [h2]

/-- C6 witness: the amended theorem's first clause applied concretely:
querying `root` with `root` already visited prints one line and does
not recurse. -/
theorem C6_witness :
    extract_calltree proj6 1 "F.cpp" none "root" ["root"] 0 (-1) =
      some (calltreeLine fmap6 "root" "F.cpp" 0 (-1), ["root"]) :=
  C6_amended.1 proj6 0 "F.cpp" none "root" ["root"] 0 (-1) fmap6 rfl (by decide) rfl

/-- C7: qualifier resolution: a function nested in namespaces `a` then
`b` gets qualifier `a::b`; a declarator name `a::b::f` with no
enclosing namespace yields qualifier `a::b` and simple name `f`; and
whenever both an enclosing namespace and a name split-off qualifier
exist, the split-off part is appended to the enclosing namespace,
enclosing-first. -/
theorem C7_qualifiers :
    (processSourceFile 10 "t7.cpp" rootT7).map
        (List.map (fun f => (f.namespace_or_class, f.name))) = some [("a::b", "f")]
    ∧ (extractInformation 10 funcDefQ "").map
        (fun i => (i.namespace_or_class, i.name)) = some ("a::b", "f")
    ∧ ∀ (ns name p n : String),
        rsplit1 name "::" = some (p, n) → ns ≠ "" → p ≠ "" →
        resolveQualified ns name = (ns ++ "::" ++ p, n) := by
  refine ⟨rfl, rfl, ?_⟩
  intro ns name p n h1 h2 h3
  simp [resolveQualified, h1, h2, h3]

/-- C7 witness: the general clause applied to name `Cls::m` under
enclosing namespace `outer`. -/
theorem C7_witness : resolveQualified "outer" "Cls::m" = ("outer::Cls", "m") :=
  C7_qualifiers.2.2 "outer" "Cls::m" "Cls" "m" rfl (by decide) (by decide)

/-- C8: name resolution: the global resolver on map keys
`{"Foo::bar", "baz"}` queried with `"bar"` returns the `"Foo::bar"`
entry (suffix match after the exact pass fails); the per-unit resolver
with `exact := true` returns no result for `"bar"` on a unit with no
exact `"bar"` qualifier-plus-name; and exact key matches always win
first in the global resolver. -/
theorem C8_resolution :
    getFunctionNodeGlobal "bar" fmap8 false = some fBar
    ∧ unit8.get_function_node "bar" true = none
    ∧ ∀ (target : String) (fmap : List (String × FunctionDefinition))
        (p : String × FunctionDefinition) (ol : Bool),
        fmap.find? (fun q => q.1 == target) = some p →
        getFunctionNodeGlobal target fmap ol = some p.2 := by
  refine ⟨rfl, rfl, ?_⟩
  intro target fmap p ol h
  simp only [getFunctionNodeGlobal, h]

/-- C8 witness: the exact-match clause applied to key `baz`. -/
theorem C8_witness : getFunctionNodeGlobal "baz" fmap8 true = some fBaz :=
  C8_resolution.2.2 "baz" fmap8 ("baz", fBaz) true rfl

/-- C9: on a project whose aggregation pass has not run
(`all_functions` not yet created), `extract_calltree` with a non-empty,
resolvable function name fails (models the `AttributeError` raised at
the `self.all_functions` access) instead of returning any rendering. -/
theorem C9_attribute_error :
    ∀ (proj : Project) (fuel : Nat) (sf : String) (sc0 : Option SourceCodeFile)
      (name : String) (v : List String) (d : Nat) (ln : Int),
      proj.all_functions = none →
      name ≠ "" →
      (find_source_with_func_def proj name).isSome = true →
      extract_calltree proj (fuel + 1) sf sc0 name v d ln = none := by
  intro proj fuel sf sc0 name v d ln h1 h2 _h3
  simp only [extract_calltree, h1]
  simp [h2]

/-- C9 witness: the theorem applied to the pre-aggregation project
`proj9` and the resolvable name `root`. -/
theorem C9_witness : extract_calltree proj9 1 "F.cpp" none "root" [] 0 (-1) = none :=
  C9_attribute_error proj9 0 "F.cpp" none "root" [] 0 (-1) rfl (by decide) rfl

/-- C10: within one depth query, an unresolvable callee name is
appended to the single shared visited list, and a later callsite whose
resolved function's name equals an entry of the visited list
contributes exactly 1 instead of being recursed into; concretely, in
`proj10` the name `n` is ambiguous (two files define `n`) hence
unresolvable and gets appended, so `f`'s second callsite `A::n`
(resolving to the function named `n`) contributes exactly 1, giving
`f` depth 1 even though `A::n` itself has depth 1 (recursing would
have produced 2). -/
theorem C10_shared_visited :
    (∀ (proj : Project) recurse (n : String) (l : Nat) rest (d : Nat) (v : List String),
       find_source_with_func_def proj n = none →
       depthLoop proj recurse ((n, l) :: rest) d v =
         depthLoop proj recurse rest d (v ++ [n]))
    ∧ (∀ (proj : Project) recurse (n : String) (l : Nat) rest (d : Nat) (v : List String)
         (sc : SourceCodeFile) (tgt : FunctionDefinition),
       find_source_with_func_def proj n = some (sc, tgt) →
       v.contains tgt.name = true →
       depthLoop proj recurse ((n, l) :: rest) d v =
         depthLoop proj recurse rest (max d 1) v)
    ∧ find_source_with_func_def proj10 "n" = none
    ∧ (find_source_with_func_def proj10 "A::n").map (fun r => r.2.name) = some "n"
    ∧ calculate_function_depth proj10 f10 = 1
    ∧ calculate_function_depth proj10 fAn = 1 := by
  refine ⟨?_, ?_, rfl, rfl, rfl, rfl⟩
  · intro proj recurse n l rest d v h
    simp only [depthLoop, h]
  · intro proj recurse n l rest d v sc tgt h1 h2
    simp only [depthLoop, h1, h2, if_true]

/-- C10 witness: the unresolved-callee clause applied concretely in
`projU`. -/
theorem C10_witness :
    depthLoop projU (recDepth projU 1) [("nosuch", 1)] 0 ["f"] =
      depthLoop projU (recDepth projU 1) [] 0 ["f", "nosuch"] :=
  C10_shared_visited.1 projU (recDepth projU 1) "nosuch" 1 [] 0 ["f"] rfl
